import Mathlib

/-!
Verification development for the weewx-skymap-almanac repository.

The first part embeds the JavaScript helper `set_display_in_svg` from
`example/Skymap/skymap.js` over a small model of the DOM (a document is a
list of elements, each with an id and an inline-style association list).
The later parts model, from the specification, the projection,
culling, star-filtering, constellation, styling, moon-tilt and rendering
machinery of the extension.
-/

/-- Inline CSS style of one element: an association list from property
name to value, as manipulated by `el.style` in the JavaScript source. -/
structure CSSStyle where
  props : List (String × String)
deriving Repr, DecidableEq

/-- Model of `el.style.removeProperty(p)`: delete every binding of `p`. -/
def CSSStyle.removeProp (st : CSSStyle) (p : String) : CSSStyle :=
  ⟨st.props.filter (fun q => q.1 != p)⟩

/-- Model of `el.style.p = v`: bind property `p` to value `v`. -/
def CSSStyle.setProp (st : CSSStyle) (p v : String) : CSSStyle :=
  ⟨(p, v) :: st.props.filter (fun q => q.1 != p)⟩

/-- Read a property of the inline style, `none` when the property is
not present inline. -/
def CSSStyle.get (st : CSSStyle) (p : String) : Option String :=
  (st.props.find? (fun q => q.1 == p)).map Prod.snd

/-- A DOM element: its id attribute and its inline style. -/
structure Element where
  ident : String
  style : CSSStyle
deriving Repr, DecidableEq

/-- A document: the elements in document order. -/
structure Document where
  elems : List Element
deriving Repr, DecidableEq

/-- Model of `document.getElementById`: the first element carrying the id,
`null` (here `none`) when there is none. -/
def getElementById (doc : Document) (id : String) : Option Element :=
  doc.elems.find? (fun e => e.ident == id)

/-- The `x.target.checked` part of the change event the handler receives. -/
structure Event where
  checked : Bool
deriving Repr, DecidableEq

/-- The mutation `set_display_in_svg` applies to the element it found:
on `checked` remove the inline `display` property, otherwise set
`display` to `"none"`. -/
def applyToggle (x : Event) (e : Element) : Element :=
  if x.checked then
    { e with style := e.style.removeProp "display" }
  else
    { e with style := e.style.setProp "display" "none" }

/-- Replace the first element of the list carrying the id by its image
under `f`; leave the list unchanged when no element matches. -/
def updateFirst (l : List Element) (id : String) (f : Element → Element) :
    List Element :=
  match l with
  | [] => []
  | e :: rest =>
      if e.ident == id then f e :: rest else e :: updateFirst rest id f

/-- Embedding of `set_display_in_svg(id, x)` from
`example/Skymap/skymap.js`: look the element up by id; when it exists,
remove the inline `display` property if the checkbox is checked and set
`display` to `"none"` otherwise; when it does not exist, do nothing. -/
def set_display_in_svg (doc : Document) (id : String) (x : Event) :
    Document :=
  ⟨updateFirst doc.elems id (applyToggle x)⟩

theorem CSSStyle.get_setProp_same (st : CSSStyle) (p v : String) :
    (st.setProp p v).get p = some v := by
  simp [CSSStyle.setProp, CSSStyle.get, List.find?]

theorem find?_filter_ne (props : List (String × String)) (p k : String)
    (hpk : p ≠ k) :
    (props.filter (fun q => q.1 != k)).find? (fun q => q.1 == p) =
      props.find? (fun q => q.1 == p) := by
  induction props with
  | nil => simp
  | cons q rest ih =>
      by_cases hq : q.1 = k
      · have h1 : (q.1 != k) = false := by simp [hq]
        have h2 : (q.1 == p) = false := by
          simp [hq]
          exact fun h => hpk h.symm
        simp [List.filter, List.find?, h1, h2, ih]
      · have h1 : (q.1 != k) = true := by simp [hq]
        have h4 : (p != k) = true := by simp [hpk]
        by_cases h2 : q.1 = p
        · simp [List.filter, List.find?, h1, h2, h4]
        · have h3 : (q.1 == p) = false := by simp [h2]
          simp [List.filter, List.find?, h1, h3, h4, ih]

theorem CSSStyle.get_setProp_ne (st : CSSStyle) (p v q : String)
    (h : q ≠ p) : (st.setProp p v).get q = st.get q := by
  have hpq : (p == q) = false := by
    simp
    exact fun hc => h hc.symm
  simp [CSSStyle.setProp, CSSStyle.get, List.find?, hpq,
    find?_filter_ne st.props q p h]

theorem CSSStyle.get_removeProp_same (st : CSSStyle) (p : String) :
    (st.removeProp p).get p = none := by
  have hfind : (st.props.filter (fun q => q.1 != p)).find?
      (fun q => q.1 == p) = none := by
    rw [List.find?_eq_none]
    intro q hmem
    have := List.of_mem_filter hmem
    simpa using this
  simp [CSSStyle.removeProp, CSSStyle.get, hfind]

theorem CSSStyle.get_removeProp_ne (st : CSSStyle) (p q : String)
    (h : q ≠ p) : (st.removeProp p).get q = st.get q := by
  simp [CSSStyle.removeProp, CSSStyle.get, find?_filter_ne st.props q p h]

theorem applyToggle_ident (x : Event) (e : Element) :
    (applyToggle x e).ident = e.ident := by
  cases hx : x.checked <;> simp [applyToggle, hx]

theorem applyToggle_get_ne (x : Event) (e : Element) (p : String)
    (h : p ≠ "display") :
    (applyToggle x e).style.get p = e.style.get p := by
  cases hx : x.checked <;>
    simp [applyToggle, hx, CSSStyle.get_removeProp_ne _ _ _ h,
      CSSStyle.get_setProp_ne _ _ _ _ h]

theorem updateFirst_length (l : List Element) (id : String)
    (f : Element → Element) : (updateFirst l id f).length = l.length := by
  induction l with
  | nil => rfl
  | cons e rest ih =>
      cases hg : (e.ident == id) <;> simp [updateFirst, hg, ih]

theorem updateFirst_find?_none (l : List Element) (id : String)
    (f : Element → Element)
    (h : l.find? (fun a => a.ident == id) = none) :
    updateFirst l id f = l := by
  induction l with
  | nil => rfl
  | cons a rest ih =>
      cases hg : (a.ident == id)
      · have hrest : rest.find? (fun a => a.ident == id) = none := by
          simpa [List.find?, hg] using h
        simp [updateFirst, hg, ih hrest]
      · simp [List.find?, hg] at h

theorem updateFirst_find?_some (l : List Element) (id : String)
    (e : Element) (x : Event)
    (h : l.find? (fun a => a.ident == id) = some e) :
    (updateFirst l id (applyToggle x)).find? (fun a => a.ident == id) =
      some (applyToggle x e) := by
  induction l with
  | nil => simp [List.find?] at h
  | cons a rest ih =>
      cases hg : (a.ident == id)
      · have hrest : rest.find? (fun a => a.ident == id) = some e := by
          simpa [List.find?, hg] using h
        simp [updateFirst, hg, List.find?, ih hrest]
      · have hea : e = a := by
          have := h
          simp [List.find?, hg] at this
          exact this.symm
        subst hea
        have hg2 : ((applyToggle x e).ident == id) = true := by
          rw [applyToggle_ident]; exact hg
        simp [updateFirst, hg, List.find?, hg2]

theorem updateFirst_forall₂ (l : List Element) (id : String) (x : Event) :
    List.Forall₂
      (fun e e2 =>
        e2.ident = e.ident ∧
        (∀ p, p ≠ "display" → e2.style.get p = e.style.get p) ∧
        (e.ident ≠ id → e2 = e))
      l (updateFirst l id (applyToggle x)) := by
  induction l with
  | nil => exact List.Forall₂.nil
  | cons a rest ih =>
      cases hg : (a.ident == id)
      · have hu : updateFirst (a :: rest) id (applyToggle x) =
            a :: updateFirst rest id (applyToggle x) := by
          simp [updateFirst, hg]
        rw [hu]
        exact List.Forall₂.cons ⟨rfl, fun _ _ => rfl, fun _ => rfl⟩ ih
      · have hu : updateFirst (a :: rest) id (applyToggle x) =
            applyToggle x a :: rest := by
          simp [updateFirst, hg]
        rw [hu]
        refine List.Forall₂.cons ⟨applyToggle_ident x a, ?_, ?_⟩ ?_
        · intro p hp
          exact applyToggle_get_ne x a p hp
        · intro hne
          exact absurd (by simpa using hg) hne
        · rw [List.forall₂_same]
          intro e _
          exact ⟨rfl, fun _ _ => rfl, fun _ => rfl⟩

/-- C9: for every element id present in the document and every event, after
`set_display_in_svg(id, x)` the element found under the id has inline
`display` equal to `"none"` exactly when the checkbox is unchecked, and no
inline `display` property when it is checked. -/
theorem set_display_matches_checkbox (doc : Document) (id : String)
    (x : Event) (e : Element) (h : getElementById doc id = some e) :
    ∃ e2, getElementById (set_display_in_svg doc id x) id = some e2 ∧
      (x.checked = false → e2.style.get "display" = some "none") ∧
      (x.checked = true → e2.style.get "display" = none) := by
  refine ⟨applyToggle x e, ?_, ?_, ?_⟩
  · exact updateFirst_find?_some doc.elems id e x h
  · intro hx
    simp [applyToggle, hx, CSSStyle.get_setProp_same]
  · intro hx
    simp [applyToggle, hx, CSSStyle.get_removeProp_same]

/-- C10: with an absent id, `set_display_in_svg` leaves the document
unchanged (and, being a total function, does not throw); with a present id
the document keeps its shape: element by element, the id attribute and all
inline style properties other than `display` are preserved, and every
element whose id differs from the requested one is wholly unchanged. -/
theorem set_display_frame (doc : Document) (id : String) (x : Event) :
    (getElementById doc id = none → set_display_in_svg doc id x = doc) ∧
    List.Forall₂
      (fun e e2 =>
        e2.ident = e.ident ∧
        (∀ p, p ≠ "display" → e2.style.get p = e.style.get p) ∧
        (e.ident ≠ id → e2 = e))
      doc.elems (set_display_in_svg doc id x).elems := by
  constructor
  · intro h
    show (⟨updateFirst doc.elems id (applyToggle x)⟩ : Document) = doc
    rw [updateFirst_find?_none doc.elems id (applyToggle x) h]
  · exact updateFirst_forall₂ doc.elems id x

theorem set_display_matches_checkbox_witness :
    ∃ e2,
      getElementById
        (set_display_in_svg ⟨[⟨"constellations", ⟨[]⟩⟩]⟩ "constellations"
          ⟨false⟩) "constellations" = some e2 ∧
      ((false : Bool) = false → e2.style.get "display" = some "none") ∧
      ((false : Bool) = true → e2.style.get "display" = none) :=
  set_display_matches_checkbox ⟨[⟨"constellations", ⟨[]⟩⟩]⟩ "constellations"
    ⟨false⟩ ⟨"constellations", ⟨[]⟩⟩ (by rfl)

theorem set_display_frame_witness :
    set_display_in_svg ⟨[⟨"a", ⟨[]⟩⟩]⟩ "missing" ⟨true⟩ = ⟨[⟨"a", ⟨[]⟩⟩]⟩ :=
  (set_display_frame ⟨[⟨"a", ⟨[]⟩⟩]⟩ "missing" ⟨true⟩).1 (by rfl)

/-- Modelled from the spec: the Horizontal Projector's disk mapping (the
Python implementation of the extension is not among the provided source
files). Zenith maps to the disk center, the horizon to the disk edge of
radius `R`, and the radius from the center is proportional to
`90° − altitude` (equidistant azimuthal projection). -/
def projRadius (R a : ℚ) : ℚ :=
  R * ((90 - a) / 90)

/-- C1: on the closed interval of altitudes from 0° to 90° the disk-mapping
radius is monotonically decreasing in the altitude, the zenith (90°) maps
to the disk center (radius 0) and the horizon (0°) to the disk edge
(radius R). -/
theorem projRadius_antitone_and_bounds (R a b : ℚ) (hR : 0 ≤ R)
    (ha : 0 ≤ a) (hab : a ≤ b) (hb : b ≤ 90) :
    projRadius R b ≤ projRadius R a ∧
    projRadius R 90 = 0 ∧ projRadius R 0 = R := by
  refine ⟨?_, by norm_num [projRadius], by norm_num [projRadius]⟩
  unfold projRadius
  have h1 : (90 - b) / 90 ≤ (90 - a) / 90 := by
    apply div_le_div_of_nonneg_right ?_ (by norm_num)
    · linarith
  exact mul_le_mul_of_nonneg_left h1 hR

theorem projRadius_antitone_and_bounds_witness :
    projRadius 400 20 ≤ projRadius 400 10 ∧
    projRadius 400 90 = 0 ∧ projRadius 400 0 = 400 :=
  projRadius_antitone_and_bounds 400 10 20 (by norm_num) (by norm_num)
    (by norm_num) (by norm_num)

/-- Classes of drawable sky-map elements, as the spec enumerates them
(object kinds plus the always-drawn grid and ecliptic layers). -/
inductive SkyClass
  | sunC
  | moonC
  | planetC
  | starC
  | satelliteC
  | gridC
  | eclipticC
deriving Repr, DecidableEq

/-- Modelled from the spec: the exempt always-drawn classes are the grid
circles and the ecliptic dotted line; they are drawn even below the
horizon, clipped to the disk. -/
def exemptClass : SkyClass → Bool
  | SkyClass.gridC => true
  | SkyClass.eclipticC => true
  | _ => false

/-- A projected object as the Horizontal Projector hands it to the Scene
Composer: identity, class, and horizontal coordinates. -/
structure ProjPoint where
  ident : String
  cls : SkyClass
  altitude : ℚ
  azimuth : ℚ
deriving Repr, DecidableEq

/-- Modelled from the spec: `visible=false` when altitude < 0 (below the
horizon) unless the object class is exempt. -/
def projVisible (o : ProjPoint) : Bool :=
  decide (0 ≤ o.altitude) || exemptClass o.cls

/-- Modelled from the spec: the Scene Composer's rendered object layer
keeps exactly the visible projected points. -/
def objectLayer (objs : List ProjPoint) : List ProjPoint :=
  objs.filter projVisible

/-- C2: an object strictly below the horizon whose class is not exempt is
marked not visible and omitted from the rendered object layer, while an
exempt-class element is drawn even below the horizon. -/
theorem culling_below_horizon (objs : List ProjPoint) (o : ProjPoint) :
    (o.altitude < 0 → exemptClass o.cls = false →
      projVisible o = false ∧ o ∉ objectLayer objs) ∧
    (exemptClass o.cls = true → o ∈ objs → o ∈ objectLayer objs) := by
  constructor
  · intro halt hex
    have hvis : projVisible o = false := by
      simp [projVisible, hex]
      linarith
    refine ⟨hvis, ?_⟩
    intro hmem
    have := (List.mem_filter.mp hmem).2
    rw [hvis] at this
    exact Bool.false_ne_true this
  · intro hex hmem
    apply List.mem_filter.mpr
    refine ⟨hmem, ?_⟩
    simp [projVisible, hex]

theorem culling_below_horizon_witness :
    projVisible ⟨"mars_barycenter", SkyClass.planetC, -5, 120⟩ = false ∧
    (⟨"mars_barycenter", SkyClass.planetC, -5, 120⟩ : ProjPoint) ∉
      objectLayer [⟨"mars_barycenter", SkyClass.planetC, -5, 120⟩] :=
  (culling_below_horizon [⟨"mars_barycenter", SkyClass.planetC, -5, 120⟩]
    ⟨"mars_barycenter", SkyClass.planetC, -5, 120⟩).1 (by norm_num) (by rfl)

/-- A catalog star: identifier (e.g. `HIP11767`), magnitude and, once
projected for the requested instant, its altitude above the horizon. -/
structure CatalogStar where
  ident : String
  mag : ℚ
  alt : ℚ
deriving Repr, DecidableEq

/-- Modelled from the spec: stars with magnitude above the configured
`max_magnitude` threshold are excluded from the catalog entirely, not just
hidden (the larger the magnitude, the fainter the star). -/
def filterStars (cat : List CatalogStar) (maxMag : ℚ) : List CatalogStar :=
  cat.filter (fun s => decide (s.mag ≤ maxMag))

/-- C5: star filtering by magnitude is idempotent — re-filtering an
already-filtered catalog with the same threshold yields the same set —
and a star survives the filter exactly when it is in the catalog with
magnitude at most the threshold. -/
theorem filterStars_idempotent (cat : List CatalogStar) (m : ℚ) :
    filterStars (filterStars cat m) m = filterStars cat m ∧
    ∀ s, s ∈ filterStars cat m ↔ s ∈ cat ∧ s.mag ≤ m := by
  constructor
  · unfold filterStars
    rw [List.filter_filter]
    simp
  · intro s
    simp [filterStars, List.mem_filter]

theorem filterStars_idempotent_witness :
    filterStars
        (filterStars [⟨"HIP11767", 2, 40⟩, ⟨"HIP99999", 7, 10⟩] 6) 6 =
      filterStars [⟨"HIP11767", 2, 40⟩, ⟨"HIP99999", 7, 10⟩] 6 :=
  (filterStars_idempotent [⟨"HIP11767", 2, 40⟩, ⟨"HIP99999", 7, 10⟩] 6).1

/-- Modelled from the spec: a star is above the horizon when its computed
altitude is not negative (stars are not an exempt always-drawn class). -/
def aboveHorizon (s : CatalogStar) : Bool :=
  decide (0 ≤ s.alt)

/-- Modelled from the spec: the star available under an identifier for
constellation drawing — present after the `max_magnitude` filtering. -/
def starFor (cat : List CatalogStar) (m : ℚ) (id : String) :
    Option CatalogStar :=
  (filterStars cat m).find? (fun s => s.ident == id)

/-- Modelled from the spec: a constellation line segment is drawn when both
endpoint stars are present (pass the magnitude filter) and visible (above
the horizon); otherwise the segment is skipped entirely, never clipped. -/
def segmentDrawn (cat : List CatalogStar) (m : ℚ) (seg : String × String) :
    Bool :=
  match starFor cat m seg.1, starFor cat m seg.2 with
  | some a, some b => aboveHorizon a && aboveHorizon b
  | _, _ => false

/-- Modelled from the spec: the constellation-line layer of the scene keeps
exactly the drawable whole segments. -/
def drawnSegments (segs : List (String × String)) (cat : List CatalogStar)
    (m : ℚ) : List (String × String) :=
  segs.filter (segmentDrawn cat m)

theorem segmentDrawn_iff (cat : List CatalogStar) (m : ℚ)
    (seg : String × String) :
    segmentDrawn cat m seg = true ↔
      ∃ a b, starFor cat m seg.1 = some a ∧ starFor cat m seg.2 = some b ∧
        aboveHorizon a = true ∧ aboveHorizon b = true := by
  constructor
  · intro h
    rcases h1 : starFor cat m seg.1 with _ | a
    · rw [segmentDrawn, h1] at h
      exact absurd h (by simp)
    · rcases h2 : starFor cat m seg.2 with _ | b
      · rw [segmentDrawn, h1, h2] at h
        exact absurd h (by simp)
      · rw [segmentDrawn, h1, h2, Bool.and_eq_true] at h
        exact ⟨a, b, rfl, rfl, h.1, h.2⟩
  · rintro ⟨a, b, h1, h2, hva, hvb⟩
    rw [segmentDrawn, h1, h2, Bool.and_eq_true]
    exact ⟨hva, hvb⟩

/-- C3: a constellation line segment appears in the drawn layer exactly
when it is requested and both of its endpoint stars pass the magnitude
filter and are above the horizon; a segment with a filtered-out or
below-horizon endpoint is skipped whole (the layer only ever contains
entire requested segments). -/
theorem constellation_segment_iff (segs : List (String × String))
    (cat : List CatalogStar) (m : ℚ) (seg : String × String) :
    seg ∈ drawnSegments segs cat m ↔
      seg ∈ segs ∧
      ∃ a b, starFor cat m seg.1 = some a ∧ starFor cat m seg.2 = some b ∧
        aboveHorizon a = true ∧ aboveHorizon b = true := by
  rw [drawnSegments, List.mem_filter, segmentDrawn_iff]

theorem constellation_segment_iff_witness :
    ("HIP1", "HIP2") ∈
      drawnSegments [("HIP1", "HIP2"), ("HIP1", "HIP3")]
        [⟨"HIP1", 1, 30⟩, ⟨"HIP2", 2, 50⟩, ⟨"HIP3", 7, 20⟩] 6 ∧
    ("HIP1", "HIP3") ∉
      drawnSegments [("HIP1", "HIP2"), ("HIP1", "HIP3")]
        [⟨"HIP1", 1, 30⟩, ⟨"HIP2", 2, 50⟩, ⟨"HIP3", 7, 20⟩] 6 := by
  constructor
  · exact (constellation_segment_iff _ _ _ _).mpr
      ⟨by decide, ⟨"HIP1", 1, 30⟩, ⟨"HIP2", 2, 50⟩, by decide, by decide,
        by decide, by decide⟩
  · intro hmem
    rcases ((constellation_segment_iff
      [("HIP1", "HIP2"), ("HIP1", "HIP3")]
      [⟨"HIP1", 1, 30⟩, ⟨"HIP2", 2, 50⟩, ⟨"HIP3", 7, 20⟩] 6
      ("HIP1", "HIP3")).mp hmem).2 with ⟨a, b, h1, h2, hva, hvb⟩
    have hnone :
        starFor [⟨"HIP1", 1, 30⟩, ⟨"HIP2", 2, 50⟩, ⟨"HIP3", 7, 20⟩] 6
          ("HIP1", "HIP3").2 = none := by decide
    rw [hnone] at h2
    exact Option.noConfusion h2

/-- A style entry value: size, color and, for satellites, an optional
marker shape, as in the `Formats` sub-mapping of the configuration. -/
structure Format where
  size : ℚ
  color : String
  shape : Option String
deriving Repr, DecidableEq

/-- Modelled from the spec: built-in per-class default formats (reasonable
defaults exist, so the `Formats` section is optional). -/
def builtinFormat : SkyClass → Format
  | SkyClass.sunC => ⟨4, "#ff0", none⟩
  | SkyClass.moonC => ⟨4, "#ffecd5", none⟩
  | SkyClass.planetC => ⟨0.85, "#ff8f5e", none⟩
  | SkyClass.starC => ⟨1, "#ff0", none⟩
  | SkyClass.satelliteC => ⟨1, "#fff", some "round"⟩
  | SkyClass.gridC => ⟨1, "#888", none⟩
  | SkyClass.eclipticC => ⟨1, "#888", none⟩

/-- Modelled from the spec: a `Formats` key is a wildcard pattern when it
ends in `*`, e.g. `gps_*`. -/
def isWildcard (pat : String) : Bool :=
  pat.endsWith "*"

/-- Modelled from the spec: a wildcard pattern matches every identifier
beginning with the characters before the `*`. -/
def matchesWildcard (pat id : String) : Bool :=
  isWildcard pat && id.startsWith (pat.dropRight 1)

/-- Modelled from the spec: style resolution order — an explicit
per-identifier entry first, then a matching wildcard entry, then the
built-in class default. -/
def resolveFormat (fmts : List (String × Format)) (cls : SkyClass)
    (id : String) : Format :=
  match fmts.find? (fun e => e.1 == id) with
  | some e => e.2
  | none =>
      match fmts.find? (fun e => matchesWildcard e.1 id) with
      | some e => e.2
      | none => builtinFormat cls

/-- C4: style resolution is deterministic with precedence explicit
per-identifier entry over matching wildcard entry over built-in class
default: when an exact entry exists the result is an exact entry's format,
with no exact entry but a matching wildcard the result is a matching
wildcard entry's format, and with neither it is the built-in default. -/
theorem style_resolution_precedence (fmts : List (String × Format))
    (cls : SkyClass) (id : String) :
    ((∃ f, (id, f) ∈ fmts) →
      ∃ f, (id, f) ∈ fmts ∧ resolveFormat fmts cls id = f) ∧
    ((∀ f, (id, f) ∉ fmts) →
      (∃ e ∈ fmts, matchesWildcard e.1 id = true) →
      ∃ e, e ∈ fmts ∧ matchesWildcard e.1 id = true ∧
        resolveFormat fmts cls id = e.2) ∧
    ((∀ f, (id, f) ∉ fmts) →
      (∀ e ∈ fmts, matchesWildcard e.1 id = false) →
      resolveFormat fmts cls id = builtinFormat cls) := by
  refine ⟨?_, ?_, ?_⟩
  · rintro ⟨f, hf⟩
    rcases hfind : fmts.find? (fun e => e.1 == id) with _ | e
    · rw [List.find?_eq_none] at hfind
      exact absurd (by simp : (((id, f) : String × Format).1 == id) = true)
        (by simpa using hfind (id, f) hf)
    · have hmem := List.mem_of_find?_eq_some hfind
      have hpred := List.find?_some hfind
      have hid : e.1 = id := by simpa using hpred
      refine ⟨e.2, ?_, ?_⟩
      · rw [← hid]
        exact hmem
      · rw [resolveFormat, hfind]
  · intro hnone hwild
    have hfind : fmts.find? (fun e => e.1 == id) = none := by
      rw [List.find?_eq_none]
      intro e hmem hpred
      have hid : e.1 = id := by simpa using hpred
      exact hnone e.2 (by rw [← hid]; exact hmem)
    rcases hwfind : fmts.find? (fun e => matchesWildcard e.1 id) with _ | e
    · rcases hwild with ⟨e, hmem, hmat⟩
      rw [List.find?_eq_none] at hwfind
      exact absurd hmat (by simpa using hwfind e hmem)
    · refine ⟨e, List.mem_of_find?_eq_some hwfind,
        by simpa using List.find?_some hwfind, ?_⟩
      rw [resolveFormat, hfind, hwfind]
  · intro hnone hnowild
    have hfind : fmts.find? (fun e => e.1 == id) = none := by
      rw [List.find?_eq_none]
      intro e hmem hpred
      have hid : e.1 = id := by simpa using hpred
      exact hnone e.2 (by rw [← hid]; exact hmem)
    have hwfind : fmts.find? (fun e => matchesWildcard e.1 id) = none := by
      rw [List.find?_eq_none]
      intro e hmem hpred
      rw [hnowild e hmem] at hpred
      exact Bool.false_ne_true hpred
    rw [resolveFormat, hfind, hwfind]

theorem style_resolution_precedence_witness :
    ∃ f,
      ("gps_24876", f) ∈
        [("gps_24876", (⟨3, "#A010A0", some "round"⟩ : Format)),
         ("gps_*", (⟨3, "#10A010", some "round"⟩ : Format))] ∧
      resolveFormat
        [("gps_24876", (⟨3, "#A010A0", some "round"⟩ : Format)),
         ("gps_*", (⟨3, "#10A010", some "round"⟩ : Format))]
        SkyClass.satelliteC "gps_24876" = f :=
  (style_resolution_precedence
    [("gps_24876", (⟨3, "#A010A0", some "round"⟩ : Format)),
     ("gps_*", (⟨3, "#10A010", some "round"⟩ : Format))]
    SkyClass.satelliteC "gps_24876").1
    ⟨⟨3, "#A010A0", some "round"⟩, by decide⟩

/-- A 3D vector with rational coordinates, used for exact spherical
geometry in the equatorial frame tied to the observer's meridian
(x toward the meridian point of the celestial equator, z toward the
celestial north pole). -/
structure Vec3 where
  x : ℚ
  y : ℚ
  z : ℚ
deriving Repr, DecidableEq

/-- Euclidean inner product of two vectors. -/
def dot3 (u v : Vec3) : ℚ :=
  u.x * v.x + u.y * v.y + u.z * v.z

/-- Modelled from the spec: the direction toward a sky position of hour
angle H and declination δ, given through the cosine/sine pairs
(cH, sH) and (cδ, sδ). -/
def skyDir (cH sH cδ sδ : ℚ) : Vec3 :=
  ⟨cδ * cH, -(cδ * sH), sδ⟩

/-- Modelled from the spec: the observer's zenith direction for latitude φ
given through (cos φ, sin φ); the hour-angle frame pins the meridian. -/
def zenithDir (cφ sφ : ℚ) : Vec3 :=
  ⟨cφ, 0, sφ⟩

/-- The east tangent direction on the celestial sphere at sky position m:
the celestial pole crossed with m. -/
def eastAt (m : Vec3) : Vec3 :=
  ⟨-m.y, m.x, 0⟩

/-- The north tangent direction at sky position m: the component of the
celestial-pole direction orthogonal to m (same norm as `eastAt m` on the
unit sphere). -/
def northAt (m : Vec3) : Vec3 :=
  ⟨-(m.z * m.x), -(m.z * m.y), 1 - m.z * m.z⟩

/-- East/north tangent-plane components of a direction v at sky
position m; for v orthogonal projections this is the position-angle
direction vector in the equatorial (north-up) frame. -/
def tangentComp (m v : Vec3) : ℚ × ℚ :=
  (dot3 v (eastAt m), dot3 v (northAt m))

/-- Modelled from the spec: the Moon's bright limb points toward the Sun,
so the equatorial position-angle direction of the bright limb at the Moon
is the tangential component of the Sun direction — independent of the
observer's latitude. -/
def limbDir (m s : Vec3) : ℚ × ℚ :=
  tangentComp m s

/-- Modelled from the spec: the observer's zenith-up direction at the
Moon's sky position, whose position angle from north is the parallactic
angle. -/
def upDir (m : Vec3) (cφ sφ : ℚ) : ℚ × ℚ :=
  tangentComp m (zenithDir cφ sφ)

/-- Complex-style product of plane vectors (adds their angles). -/
def cmul (u v : ℚ × ℚ) : ℚ × ℚ :=
  (u.1 * v.1 - u.2 * v.2, u.1 * v.2 + u.2 * v.1)

/-- Complex-style conjugate of a plane vector (negates its angle). -/
def conj2 (u : ℚ × ℚ) : ℚ × ℚ :=
  (u.1, -u.2)

/-- Modelled from the spec: the limb orientation in the observer's local
zenith-up frame — the equatorial bright-limb position-angle direction
rotated by minus the parallactic angle, expressed as the direction vector
`limb * conj(up)`. -/
def tiltDir (m s : Vec3) (cφ sφ : ℚ) : ℚ × ℚ :=
  cmul (limbDir m s) (conj2 (upDir m cφ sφ))

/-- Planar cross product (zero iff the two vectors are parallel). -/
def cross2 (u v : ℚ × ℚ) : ℚ :=
  u.1 * v.2 - u.2 * v.1

/-- Planar inner product. -/
def dot2 (u v : ℚ × ℚ) : ℚ :=
  u.1 * v.1 + u.2 * v.2

/-- Two plane direction vectors differ by exactly 180°: they are parallel
and point opposite ways. -/
def oppositeDir (u v : ℚ × ℚ) : Prop :=
  cross2 u v = 0 ∧ dot2 u v < 0

/-- C6 counterexample: with the Moon at hour angle 90° on the celestial
equator (cH = 0, sH = 1, cδ = 1, sδ = 0), the Sun at the meridian point of
the equator, and an observer at latitude arcsin(3/5) ≈ 36.87°
(cφ = 4/5, sφ = 3/5), negating the latitude rotates the zenith-up frame by
90°, not 180°: the two limb-orientation direction vectors are not
antiparallel, so the claimed hemisphere symmetry fails for the
parallactic-angle rotation the spec prescribes. -/
theorem moon_tilt_flip_counterexample :
    ¬ oppositeDir
        (tiltDir (skyDir 0 1 1 0) (skyDir 1 0 1 0) (4 / 5) (-(3 / 5)))
        (tiltDir (skyDir 0 1 1 0) (skyDir 1 0 1 0) (4 / 5) (3 / 5)) := by
  intro h
  have hc := h.1
  norm_num [tiltDir, limbDir, upDir, tangentComp, skyDir, zenithDir,
    eastAt, northAt, dot3, cmul, conj2, cross2] at hc

/-- C6 (amended): when the Moon stands on the observer's meridian
(hour angle 0) and the meridian geometry is nondegenerate
(cos δ > 0, sin(φ−δ) > 0 and sin(φ+δ) > 0, bright-limb direction
nonzero), negating the observer's latitude changes the limb orientation
by exactly 180°: the two limb-orientation direction vectors are
antiparallel. Off the meridian the flip is by twice the parallactic
angle and the counterexample above shows the unrestricted claim fails. -/
theorem moon_tilt_flip_meridian (cδ sδ cφ sφ : ℚ) (s : Vec3)
    (hδ : cδ ^ 2 + sδ ^ 2 = 1) (hcδ : 0 < cδ)
    (h1 : 0 < sφ * cδ - cφ * sδ) (h2 : 0 < sφ * cδ + cφ * sδ)
    (hlimb : limbDir (skyDir 1 0 cδ sδ) s ≠ (0, 0)) :
    oppositeDir
      (tiltDir (skyDir 1 0 cδ sδ) s cφ (-sφ))
      (tiltDir (skyDir 1 0 cδ sδ) s cφ sφ) := by
  have h4 : cφ * (-(sδ * cδ)) + sφ * (1 - sδ * sδ) =
      cδ * (sφ * cδ - cφ * sδ) := by
    linear_combination (-sφ) * hδ
  have h4n : cφ * (-(sδ * cδ)) + (-sφ) * (1 - sδ * sδ) =
      -(cδ * (sφ * cδ + cφ * sδ)) := by
    linear_combination sφ * hδ
  have hN : 0 < cφ * (-(sδ * cδ)) + sφ * (1 - sδ * sδ) := by
    rw [h4]
    exact mul_pos hcδ h1
  have hNn : cφ * (-(sδ * cδ)) + (-sφ) * (1 - sδ * sδ) < 0 := by
    rw [h4n]
    have := mul_pos hcδ h2
    linarith
  have hab : 0 < (s.y * cδ) ^ 2 +
      (s.x * (-(sδ * cδ)) + s.z * (1 - sδ * sδ)) ^ 2 := by
    have hne : s.y * cδ ≠ 0 ∨
        s.x * (-(sδ * cδ)) + s.z * (1 - sδ * sδ) ≠ 0 := by
      by_contra hcon
      push_neg at hcon
      apply hlimb
      simp only [limbDir, tangentComp, skyDir, eastAt, northAt, dot3,
        Prod.mk.injEq]
      constructor
      · have := hcon.1
        linarith [this]
      · have := hcon.2
        linarith [this]
    rcases hne with hne | hne
    · have hp : 0 < (s.y * cδ) ^ 2 :=
        (sq_nonneg _).lt_of_ne (Ne.symm (pow_ne_zero 2 hne))
      nlinarith [sq_nonneg (s.x * (-(sδ * cδ)) + s.z * (1 - sδ * sδ))]
    · have hp : 0 < (s.x * (-(sδ * cδ)) + s.z * (1 - sδ * sδ)) ^ 2 :=
        (sq_nonneg _).lt_of_ne (Ne.symm (pow_ne_zero 2 hne))
      nlinarith [sq_nonneg (s.y * cδ)]
  constructor
  · simp only [tiltDir, limbDir, upDir, tangentComp, skyDir, zenithDir,
      eastAt, northAt, dot3, cmul, conj2, cross2]
    ring
  · have hkey := mul_neg_of_pos_of_neg (mul_pos hab hN) hNn
    simp only [tiltDir, limbDir, upDir, tangentComp, skyDir, zenithDir,
      eastAt, northAt, dot3, cmul, conj2, dot2]
    nlinarith [hkey]

theorem moon_tilt_flip_meridian_witness :
    oppositeDir
      (tiltDir (skyDir 1 0 1 0) ⟨0, 1, 0⟩ (4 / 5) (-(3 / 5)))
      (tiltDir (skyDir 1 0 1 0) ⟨0, 1, 0⟩ (4 / 5) (3 / 5)) :=
  moon_tilt_flip_meridian 1 0 (4 / 5) (3 / 5) ⟨0, 1, 0⟩ (by norm_num)
    (by norm_num) (by norm_num) (by norm_num)
    (by norm_num [limbDir, tangentComp, skyDir, eastAt, northAt, dot3])

/-- Observer context of one render request. -/
structure ObserverContext where
  lat : ℚ
  lon : ℚ
deriving Repr, DecidableEq

/-- Modelled from the spec: the structural invariant of the observer
context — latitude in [-90°, 90°], longitude in [-180°, 180°]; a context
outside these ranges is caller error and aborts the render. -/
def ctxValid (c : ObserverContext) : Bool :=
  decide (-90 ≤ c.lat) && decide (c.lat ≤ 90) &&
    decide (-180 ≤ c.lon) && decide (c.lon ≤ 180)

/-- Generic association-list lookup by string key, first match wins. -/
def lookupA {α : Type} (l : List (String × α)) (k : String) : Option α :=
  (l.find? (fun e => e.1 == k)).map Prod.snd

/-- The read-only catalog snapshot a render works from: resolvable bodies
with their projected positions, satellite propagation results (`none`
payload = stale or missing orbital elements), and the star catalog. -/
structure Catalog where
  bodyPos : List (String × (ℚ × ℚ))
  satData : List (String × Option (ℚ × ℚ))
  stars : List CatalogStar
deriving Repr, DecidableEq

/-- Render-time parameters: requested body and satellite identifiers, the
star magnitude threshold, and the `Formats` mapping (a `none` payload
models a malformed style entry). -/
structure RenderOpts where
  bodies : List String
  sats : List String
  maxMag : ℚ
  formats : List (String × Option Format)
deriving Repr, DecidableEq

/-- Modelled from the spec: per-object style lookup where a malformed
entry falls back to the built-in default for that object, continuing the
render. -/
def fmtForRender (fmts : List (String × Option Format)) (cls : SkyClass)
    (id : String) : Format :=
  match lookupA fmts id with
  | some (some f) => f
  | some none => builtinFormat cls
  | none => builtinFormat cls

/-- One drawable object of the composed scene. -/
structure SceneObj where
  ident : String
  pos : ℚ × ℚ
  fmt : Format
deriving Repr, DecidableEq

/-- The composed scene: the object layers and the solar-time caption
(present only when the Sun could be resolved). -/
structure Scene where
  bodyObjs : List SceneObj
  satObjs : List SceneObj
  starObjs : List SceneObj
  solarCaption : Option (ℚ × ℚ)
deriving Repr, DecidableEq

/-- Modelled from the spec: the render pipeline. A structurally invalid
observer context rejects the whole request with a descriptive failure;
otherwise every unresolvable body is dropped, every satellite whose
propagation failed is silently omitted, stars are magnitude-filtered, a
missing Sun merely omits the solar-time caption, and a scene is always
produced. -/
def render (ctx : ObserverContext) (cat : Catalog) (opts : RenderOpts) :
    Except String Scene :=
  if ctxValid ctx then
    Except.ok
      { bodyObjs := opts.bodies.filterMap (fun b =>
          (lookupA cat.bodyPos b).map (fun p =>
            ⟨b, p, fmtForRender opts.formats SkyClass.planetC b⟩)),
        satObjs := opts.sats.filterMap (fun sid =>
          match lookupA cat.satData sid with
          | some (some p) =>
              some ⟨sid, p, fmtForRender opts.formats SkyClass.satelliteC sid⟩
          | _ => none),
        starObjs := (filterStars cat.stars opts.maxMag).map (fun st =>
          ⟨st.ident, (st.alt, 0), fmtForRender opts.formats SkyClass.starC
            st.ident⟩),
        solarCaption := lookupA cat.bodyPos "sun" }
  else
    Except.error "observer context out of valid range"

/-- C7: a render fails exactly when the observer context is structurally
invalid; a successful render drops every unresolvable body identifier,
omits every satellite whose data is missing or whose propagation failed,
and omits the solar caption when the Sun cannot be resolved — single bad
input elements never abort the render. -/
theorem render_error_iff (ctx : ObserverContext) (cat : Catalog)
    (opts : RenderOpts) :
    ((render ctx cat opts).isOk = true ↔ ctxValid ctx = true) ∧
    (∀ sc, render ctx cat opts = Except.ok sc →
      (∀ b, lookupA cat.bodyPos b = none →
        ∀ o ∈ sc.bodyObjs, o.ident ≠ b) ∧
      (∀ sid, lookupA cat.satData sid = none ∨
          lookupA cat.satData sid = some none →
        ∀ o ∈ sc.satObjs, o.ident ≠ sid) ∧
      (lookupA cat.bodyPos "sun" = none → sc.solarCaption = none)) := by
  constructor
  · cases hvalid : ctxValid ctx
    · rw [render, if_neg (by simp [hvalid])]
      simp [Except.isOk, Except.toBool]
    · rw [render, if_pos hvalid]
      simp [Except.isOk, Except.toBool]
  · intro sc hok
    cases hvalid : ctxValid ctx
    · rw [render, if_neg (by simp [hvalid])] at hok
      exact Except.noConfusion hok
    · rw [render, if_pos hvalid] at hok
      have hsc := (Except.ok.injEq _ _).mp hok
      subst hsc
      refine ⟨?_, ?_, ?_⟩
      · intro b hb o hmem hident
        rcases List.mem_filterMap.mp hmem with ⟨a, _, hfa⟩
        rcases Option.map_eq_some'.mp hfa with ⟨p, hlook, hco⟩
        have hoa : o.ident = a := by rw [← hco]
        rw [hoa] at hident
        rw [hident, hb] at hlook
        exact Option.noConfusion hlook
      · intro sid hsid o hmem hident
        rcases List.mem_filterMap.mp hmem with ⟨a, _, hfa⟩
        rcases hda : lookupA cat.satData a with _ | pa
        · rw [hda] at hfa
          exact Option.noConfusion hfa
        · rcases pa with _ | p
          · rw [hda] at hfa
            exact Option.noConfusion hfa
          · rw [hda] at hfa
            have hoa : o.ident = a := by
              have := (Option.some.injEq _ _).mp hfa
              rw [← this]
            rw [hoa] at hident
            rw [hident] at hda
            rcases hsid with hsid | hsid
            · rw [hsid] at hda
              exact Option.noConfusion hda
            · rw [hsid] at hda
              have := (Option.some.injEq _ _).mp hda
              exact Option.noConfusion this
      · intro hsun
        exact hsun

theorem render_error_iff_witness :
    (render ⟨51, 0⟩ ⟨[], [], []⟩
      ⟨["unknown_body"], ["gps_0"], 6, []⟩).isOk = true :=
  ((render_error_iff ⟨51, 0⟩ ⟨[], [], []⟩
    ⟨["unknown_body"], ["gps_0"], 6, []⟩).1).mpr (by norm_num [ctxValid])

/-- The full immutable input bundle of one rendering request: observer
context, catalog snapshot, render options, the Sun/Moon geometry for the
moon symbol, and the year's solar samples for the analemma. -/
structure RenderInputs where
  ctx : ObserverContext
  cat : Catalog
  opts : RenderOpts
  moonPos : Vec3
  sunPos : Vec3
  latCos : ℚ
  latSin : ℚ
  sunTrack : List (ℚ × ℚ)
deriving Repr, DecidableEq

/-- Modelled from the spec: the sky-map render of one request. -/
def skymapRender (i : RenderInputs) : Except String Scene :=
  render i.ctx i.cat i.opts

/-- Modelled from the spec: the moon-symbol render — the limb orientation
direction in the observer's zenith-up frame. -/
def moonSymbolRender (i : RenderInputs) : ℚ × ℚ :=
  tiltDir i.moonPos i.sunPos i.latCos i.latSin

/-- Modelled from the spec: the analemma render — the year's solar
declination / equation-of-time samples mapped through a fixed affine plot
transform into a connected polyline. -/
def analemmaRender (i : RenderInputs) (w h : ℚ) : List (ℚ × ℚ) :=
  i.sunTrack.map (fun p => (w * (p.2 + 20) / 40, h * (p.1 + 30) / 60))

/-- C8: every render — sky map, moon symbol, analemma — is deterministic
over its immutable inputs: two runs over equal input bundles produce
identical results (the model is a pure function of the bundle, so a render
has no effect on the inputs or any shared state by construction). -/
theorem render_deterministic (i j : RenderInputs) (w h : ℚ)
    (hij : i = j) :
    skymapRender i = skymapRender j ∧
    moonSymbolRender i = moonSymbolRender j ∧
    analemmaRender i w h = analemmaRender j w h := by
  subst hij
  exact ⟨rfl, rfl, rfl⟩

theorem render_deterministic_witness :
    skymapRender ⟨⟨51, 0⟩, ⟨[], [], []⟩, ⟨[], [], 6, []⟩,
        ⟨1, 0, 0⟩, ⟨0, 1, 0⟩, 1, 0, []⟩ =
      skymapRender ⟨⟨51, 0⟩, ⟨[], [], []⟩, ⟨[], [], 6, []⟩,
        ⟨1, 0, 0⟩, ⟨0, 1, 0⟩, 1, 0, []⟩ :=
  (render_deterministic ⟨⟨51, 0⟩, ⟨[], [], []⟩, ⟨[], [], 6, []⟩,
      ⟨1, 0, 0⟩, ⟨0, 1, 0⟩, 1, 0, []⟩
    ⟨⟨51, 0⟩, ⟨[], [], []⟩, ⟨[], [], 6, []⟩,
      ⟨1, 0, 0⟩, ⟨0, 1, 0⟩, 1, 0, []⟩ 280 300 rfl).1
